import Mathlib

/-!
Verification of the collection layer of a distributed vector-search engine.

Shallow embedding of the Rust sources:
  lib/collection/src/shard/replica_set.rs
  lib/collection/src/collection.rs
  lib/storage/src/content_manager/consensus_state.rs
  lib/collection/src/collection_manager/segments_updater.rs

Remote and local shard endpoints are RPC / disk-backed collaborators; they are
embedded as oracles: each replica carries the result its endpoint would return
for the one operation under consideration, and the fan-out combinators of the
source are translated over those oracles.  Concurrent fan-outs are linearised
in list order (remotes in their stored order, the local replica where the
source polls it).  Functions that can panic in Rust are embedded with an
explicit outcome constructor for the panic.
-/

/-! ## Common data model -/

abbrev PeerId := Nat

abbrev ShardId := Nat

/-- Error taxonomy of `CollectionError` (operations/types.rs), restricted to
the variants the claims touch. -/
inductive CollectionError where
  | notFound (what : String)
  | pointNotFound (missedPointId : Nat)
  | badRequest (description : String)
  | serviceError (description : String)
  | inconsistentShardFailure (shardsTotal shardsFailed : Nat) (firstErr : CollectionError)
  | cancelled
  | timeout
deriving DecidableEq, Repr

deriving instance DecidableEq for Except

/-- Abstract reply of a shard update; only its identity matters here. -/
structure UpdateResult where
  opNum : Nat
deriving DecidableEq, Repr

/-! ## C8 — Collection::can_upgrade_storage (collection.rs) -/

structure Version where
  major : Nat
  minor : Nat
  patch : Nat
deriving DecidableEq, Repr

/-- Embedding of `Collection::can_upgrade_storage`. -/
def can_upgrade_storage (stored app : Version) : Bool :=
  if stored.major ≠ app.major then false
  else if stored.minor ≠ app.minor then false
  else if stored.patch + 1 < app.patch then false
  else true

/-! ## C1 — ReplicaSet::update (replica_set.rs) -/

/-- A remote replica together with the reply its `update` RPC would produce. -/
structure RemoteReplica where
  peer_id : PeerId
  updateResult : Except CollectionError UpdateResult
deriving DecidableEq, Repr

/-- The fields of `ReplicaSet` that its `update` method reads.  `local` is the
outcome the local shard's `update` would produce when the local replica is
present.  `replica_state` is the persisted `peer_id -> active` map. -/
structure ReplicaSetState where
  shard_id : ShardId
  this_peer_id : PeerId
  localShard : Option (Except CollectionError UpdateResult)
  remotes : List RemoteReplica
  replica_state : List (PeerId × Bool)
deriving DecidableEq, Repr

/-- `ReplicaSet::peer_is_active`: unknown peers are not active. -/
def peer_is_active (rs : ReplicaSetState) (peer : PeerId) : Bool :=
  (rs.replica_state.lookup peer).getD false

/-- The `active_remote_shards` filter at the top of `ReplicaSet::update`. -/
def activeRemoteShards (rs : ReplicaSetState) : List RemoteReplica :=
  rs.remotes.filter (fun r => peer_is_active rs r.peer_id)

/-- `local_is_active`: local is defined and the peer itself is active. -/
def localIsActive (rs : ReplicaSetState) : Bool :=
  rs.localShard.isSome && peer_is_active rs rs.this_peer_id

def noActiveReplicaMsg (shard peer : Nat) : String :=
  s!"The replica set for shard {shard} on peer {peer} has no active replica"

def noneRepliedMsg (shard peer : Nat) : String :=
  s!"None of the replicas replied for Replica set {shard} on peer {peer}"

/-- `try_join_all(remote_futures)`: first failure (tagged with its peer) wins,
otherwise the list of all replies in order. -/
def tryJoinAllRemotes :
    List RemoteReplica → Except (PeerId × CollectionError) (List UpdateResult)
  | [] => .ok []
  | r :: rest =>
    match r.updateResult with
    | .error e => .error (r.peer_id, e)
    | .ok v =>
      match tryJoinAllRemotes rest with
      | .error pe => .error pe
      | .ok vs => .ok (v :: vs)

/-- Result of `ReplicaSet::update` together with the peer reported through
`notify_peer_failure`, if any. -/
structure ReplicaUpdateOutcome where
  result : Except CollectionError UpdateResult
  notified : Option PeerId
deriving DecidableEq, Repr

/-- Embedding of `ReplicaSet::update`.  `try_join(remote_updates, local_update)`
is linearised with the remote failures observed first, and its reply is mapped
to the remote replies only (`|(remote_res, _local_res)| remote_res`), exactly
as in the source. -/
def rsUpdate (rs : ReplicaSetState) : ReplicaUpdateOutcome :=
  let actives := activeRemoteShards rs
  if actives.isEmpty && !localIsActive rs then
    { result := .error (.serviceError (noActiveReplicaMsg rs.shard_id rs.this_peer_id)),
      notified := none }
  else
    let all_res : Except (PeerId × CollectionError) (List UpdateResult) :=
      match rs.localShard with
      | some localRes =>
        if peer_is_active rs rs.this_peer_id then
          match tryJoinAllRemotes actives with
          | .error pe => .error pe
          | .ok remote_res =>
            match localRes with
            | .error e => .error (rs.this_peer_id, e)
            | .ok _ => .ok remote_res
        else tryJoinAllRemotes actives
      | none => tryJoinAllRemotes actives
    match all_res with
    | .ok results =>
      match results.head? with
      | none =>
        { result := .error (.serviceError (noneRepliedMsg rs.shard_id rs.this_peer_id)),
          notified := none }
      | some res => { result := .ok res, notified := none }
    | .error (peer, err) => { result := .error err, notified := some peer }

/-- The participating replicas of an update, in the order the embedding polls
them: active remotes first, then the local replica when it is active. -/
def participantResults (rs : ReplicaSetState) :
    List (PeerId × Except CollectionError UpdateResult) :=
  (activeRemoteShards rs).map (fun r => (r.peer_id, r.updateResult)) ++
    (match rs.localShard with
     | some res => if peer_is_active rs rs.this_peer_id then [(rs.this_peer_id, res)] else []
     | none => [])

/-- The failure of one participant, if its reply is an error. -/
def pairFailure (pr : PeerId × Except CollectionError UpdateResult) :
    Option (PeerId × CollectionError) :=
  match pr.2 with
  | .error e => some (pr.1, e)
  | .ok _ => none

/-- First failure among the participating replicas. -/
def firstFailure (rs : ReplicaSetState) : Option (PeerId × CollectionError) :=
  (participantResults rs).findSome? pairFailure

/-- A single remote's failure, tagged with its peer, as `update` reports it. -/
def remoteFailure (r : RemoteReplica) : Option (PeerId × CollectionError) :=
  match r.updateResult with
  | .error e => some (r.peer_id, e)
  | .ok _ => none

/-- The successful replies of a list of remotes, in order. -/
def okValues (l : List RemoteReplica) : List UpdateResult :=
  l.filterMap (fun r =>
    match r.updateResult with
    | .ok v => some v
    | .error _ => none)

theorem tryJoinAll_error :
    ∀ (l : List RemoteReplica) (pe : PeerId × CollectionError),
      l.findSome? remoteFailure = some pe → tryJoinAllRemotes l = .error pe := by
  intro l
  induction l with
  | nil => intro pe h; simp [List.findSome?] at h
  | cons r rest ih =>
    intro pe h
    rw [List.findSome?_cons] at h
    cases hr : r.updateResult with
    | error e =>
      rw [show remoteFailure r = some (r.peer_id, e) by simp [remoteFailure, hr]] at h
      cases h
      simp [tryJoinAllRemotes, hr]
    | ok v =>
      rw [show remoteFailure r = none by simp [remoteFailure, hr]] at h
      simp only [tryJoinAllRemotes, hr]
      rw [ih pe h]

theorem tryJoinAll_ok :
    ∀ (l : List RemoteReplica),
      l.findSome? remoteFailure = none → tryJoinAllRemotes l = .ok (okValues l) := by
  intro l
  induction l with
  | nil => intro _; simp [tryJoinAllRemotes, okValues]
  | cons r rest ih =>
    intro h
    rw [List.findSome?_cons] at h
    cases hr : r.updateResult with
    | error e =>
      rw [show remoteFailure r = some (r.peer_id, e) by simp [remoteFailure, hr]] at h
      cases h
    | ok v =>
      rw [show remoteFailure r = none by simp [remoteFailure, hr]] at h
      simp only [tryJoinAllRemotes, hr, ih h, okValues, List.filterMap_cons]

theorem findSome?_map_append (l : List RemoteReplica)
    (t : List (PeerId × Except CollectionError UpdateResult)) :
    ((l.map (fun r => (r.peer_id, r.updateResult))) ++ t).findSome? pairFailure =
      match l.findSome? remoteFailure with
      | some pe => some pe
      | none => t.findSome? pairFailure := by
  induction l with
  | nil => simp
  | cons r rest ih =>
    simp only [List.map_cons, List.cons_append, List.findSome?_cons]
    cases hr : r.updateResult with
    | error e => simp [pairFailure, remoteFailure, hr]
    | ok v => simp only [pairFailure, remoteFailure, hr, ih]

/-- Unfolding of `firstFailure` into the remote part and the local part. -/
theorem firstFailure_eq (rs : ReplicaSetState) :
    firstFailure rs =
      match (activeRemoteShards rs).findSome? remoteFailure with
      | some pe => some pe
      | none =>
        match rs.localShard with
        | some res =>
          if peer_is_active rs rs.this_peer_id then
            match res with
            | .error e => some (rs.this_peer_id, e)
            | .ok _ => none
          else none
        | none => none := by
  unfold firstFailure participantResults
  rw [findSome?_map_append]
  cases hF : (activeRemoteShards rs).findSome? remoteFailure with
  | some pe => rfl
  | none =>
    cases hL : rs.localShard with
    | none => rfl
    | some res =>
      by_cases hA : peer_is_active rs rs.this_peer_id
      · simp only [hA, if_true]
        cases res with
        | error e => simp [pairFailure]
        | ok v => simp [pairFailure]
      · simp only [hA, if_false]
        rfl

/-- C1 (amended).  If no remote replica is active and the local replica is
absent or inactive, `ReplicaSet::update` fails with the "no active replica"
error.  Otherwise the operation is issued to every active remote and to the
local replica when it is active; on the first failure that error is returned
and the failing peer reported; when every participant succeeds the call
returns the reply of the FIRST ACTIVE REMOTE — the local reply is discarded,
and when only the local replica is active the call fails with the
"None of the replicas replied" service error. -/
theorem c1_update_first_reply (rs : ReplicaSetState) :
    rsUpdate rs =
      if activeRemoteShards rs = [] ∧ localIsActive rs = false then
        { result := .error (.serviceError (noActiveReplicaMsg rs.shard_id rs.this_peer_id)),
          notified := none }
      else
        match firstFailure rs with
        | some pe => { result := .error pe.2, notified := some pe.1 }
        | none =>
          match (activeRemoteShards rs).head? with
          | some r => { result := r.updateResult, notified := none }
          | none =>
            { result := .error (.serviceError (noneRepliedMsg rs.shard_id rs.this_peer_id)),
              notified := none } := by
  by_cases hguard : activeRemoteShards rs = [] ∧ localIsActive rs = false
  · rw [if_pos hguard]
    simp [rsUpdate, hguard.1, hguard.2]
  · rw [if_neg hguard]
    have hg : ((activeRemoteShards rs).isEmpty && !localIsActive rs) = false := by
      simp [List.isEmpty_iff]
      intro h2
      simpa [h2] using hguard
    unfold rsUpdate
    simp only [hg, Bool.false_eq_true, if_false]
    rw [firstFailure_eq]
    cases hF : (activeRemoteShards rs).findSome? remoteFailure with
    | some pe =>
      obtain ⟨p, e⟩ := pe
      have hT := tryJoinAll_error (activeRemoteShards rs) (p, e) hF
      cases hL : rs.localShard with
      | none => simp only [hT]
      | some localRes =>
        by_cases hAct : peer_is_active rs rs.this_peer_id
        · simp [hAct, hT]
        · simp [hAct, hT]
    | none =>
      have hT := tryJoinAll_ok (activeRemoteShards rs) hF
      have hhead :
          (match (okValues (activeRemoteShards rs)).head? with
            | none =>
              ({ result := .error (.serviceError (noneRepliedMsg rs.shard_id rs.this_peer_id)),
                 notified := none } : ReplicaUpdateOutcome)
            | some res => { result := .ok res, notified := none }) =
          (match (activeRemoteShards rs).head? with
            | some r =>
              ({ result := r.updateResult, notified := none } : ReplicaUpdateOutcome)
            | none =>
              { result := .error (.serviceError (noneRepliedMsg rs.shard_id rs.this_peer_id)),
                notified := none }) := by
        cases hA : activeRemoteShards rs with
        | nil => simp [okValues]
        | cons r rest =>
          rw [hA] at hF
          rw [List.findSome?_cons] at hF
          cases hr : r.updateResult with
          | error e =>
            rw [show remoteFailure r = some (r.peer_id, e) by simp [remoteFailure, hr]] at hF
            cases hF
          | ok v =>
            simp [okValues, List.filterMap_cons, hr]
      cases hL : rs.localShard with
      | none => simp only [hT]; exact hhead
      | some localRes =>
        by_cases hAct : peer_is_active rs rs.this_peer_id
        · simp only [hAct, if_true, hT]
          cases localRes with
          | error e => rfl
          | ok w => exact hhead
        · simp only [hAct, if_false, hT]
          exact hhead

/-- A replica set whose local replica is present, active and succeeds, with no
active remote: one inactive remote on peer 2. -/
def c1CexState : ReplicaSetState :=
  { shard_id := 0
    this_peer_id := 1
    localShard := some (.ok { opNum := 5 })
    remotes := [{ peer_id := 2, updateResult := .ok { opNum := 5 } }]
    replica_state := [(1, true), (2, false)] }

/-- C1 counterexample.  With the local replica active (so the claim's
"otherwise" branch applies and the call should return the first reply, the
local one) but no active remote, `ReplicaSet::update` does not return any
reply: it fails with the "None of the replicas replied" service error. -/
theorem c1_counterexample :
    localIsActive c1CexState = true ∧
    activeRemoteShards c1CexState = [] ∧
    (rsUpdate c1CexState).result = .error (.serviceError (noneRepliedMsg 0 1)) ∧
    (rsUpdate c1CexState).result ≠ .ok { opNum := 5 } := by
  refine ⟨rfl, rfl, rfl, ?_⟩
  decide

/-- C8: `can_upgrade_storage` permits the upgrade exactly when the stored and
running versions share major and minor and the patch level increases by at
most one (a patch downgrade of any size also passes the check, matching the
code and the claim's formulation `stored.patch + 1 < app.patch`). -/
theorem c8_can_upgrade_storage_iff (stored app : Version) :
    can_upgrade_storage stored app = true ↔
      stored.major = app.major ∧ stored.minor = app.minor ∧
        (app.patch : Int) ≤ (stored.patch : Int) + 1 := by
  unfold can_upgrade_storage
  split_ifs with h1 h2 h3
  · simp only [Bool.false_eq_true, false_iff]
    intro h
    exact h1 h.1
  · simp only [Bool.false_eq_true, false_iff]
    intro h
    exact h2 h.2.1
  · simp only [Bool.false_eq_true, false_iff]
    intro h
    have := h.2.2
    omega
  · simp only [true_iff]
    refine ⟨not_not.mp h1, not_not.mp h2, ?_⟩
    omega

/-! ## C5 — ReplicaSet::execute_read_operation (replica_set.rs) -/

/-- `READ_REMOTE_REPLICAS`: number of remote replicas to fan a read out to. -/
def READ_REMOTE_REPLICAS : Nat := 2

/-- A remote replica with the reply its read RPC would produce. -/
structure RemoteRead (α : Type) where
  peer_id : PeerId
  readResult : Except CollectionError α
deriving DecidableEq

/-- The fields of `ReplicaSet` that `execute_read_operation` reads; the local
and remote endpoints are oracles carrying the result of the read closure. -/
structure ReadReplicaSet (α : Type) where
  shard_id : ShardId
  this_peer_id : PeerId
  localShard : Option (Except CollectionError α)
  remotes : List (RemoteRead α)
  replica_state : List (PeerId × Bool)
  read_remote_replicas : Nat
deriving DecidableEq

def readPeerActive {α : Type} (rs : ReadReplicaSet α) (peer : PeerId) : Bool :=
  (rs.replica_state.lookup peer).getD false

def activeReadRemotes {α : Type} (rs : ReadReplicaSet α) : List (RemoteRead α) :=
  rs.remotes.filter (fun r => readPeerActive rs r.peer_id)

/-- Result of a read; `panicked` embeds the
`captured_error.expect(..)` panic of the source. -/
inductive ReadOutcome (α : Type) where
  | ok (v : α)
  | err (e : CollectionError)
  | panicked
deriving DecidableEq

/-- The tier-2 `FuturesUnordered` loop (linearised in list order): shortcut on
the first success, overwrite `captured_error` on every failure. -/
def fanOutLoop {α : Type} :
    List (Except CollectionError α) → Option CollectionError → Option α × Option CollectionError
  | [], captured => (none, captured)
  | .ok v :: _, captured => (some v, captured)
  | .error e :: rest, _ => fanOutLoop rest (some e)

/-- The tier-3 loop: shortcut on the first success, errors are dropped. -/
def raceLoop {α : Type} : List (Except CollectionError α) → Option α
  | [] => none
  | .ok v :: _ => some v
  | .error _ :: rest => raceLoop rest

/-- Step 1 of `execute_read_operation`: the local read, when the local shard
is present, the peer is active, and the read succeeds. -/
def localReadAttempt {α : Type} (rs : ReadReplicaSet α) : Option α :=
  match rs.localShard with
  | some res =>
    if readPeerActive rs rs.this_peer_id then
      match res with
      | .ok v => some v
      | .error _ => none
    else none
  | none => none

/-- `fan_out_selection = cmp::min(active_remote_shards.len(), read_remote_replicas)`. -/
def fanOutSelection {α : Type} (rs : ReadReplicaSet α) : Nat :=
  min (activeReadRemotes rs).length rs.read_remote_replicas

/-- Embedding of `ReplicaSet::execute_read_operation`. -/
def execute_read_operation {α : Type} (rs : ReadReplicaSet α) : ReadOutcome α :=
  match localReadAttempt rs with
  | some v => .ok v
  | none =>
    if (activeReadRemotes rs).isEmpty then
      .err (.serviceError (noActiveReplicaMsg rs.shard_id rs.this_peer_id))
    else
      match fanOutLoop (((activeReadRemotes rs).take (fanOutSelection rs)).map
          (fun r => r.readResult)) none with
      | (some v, _) => .ok v
      | (none, captured) =>
        match raceLoop (((activeReadRemotes rs).drop (fanOutSelection rs)).map
            (fun r => r.readResult)) with
        | some v => .ok v
        | none =>
          match captured with
          | some e => .err e
          | none => .panicked

/-- First success of a list of read results. -/
def firstOkRead {α : Type} (l : List (Except CollectionError α)) : Option α :=
  l.findSome? (fun r =>
    match r with
    | .ok v => some v
    | .error _ => none)

/-- First error of a list of read results. -/
def firstErrRead {α : Type} (l : List (Except CollectionError α)) : Option CollectionError :=
  l.findSome? (fun r =>
    match r with
    | .error e => some e
    | .ok _ => none)

/-- Last error of a list of read results. -/
def lastErrRead {α : Type} (l : List (Except CollectionError α)) : Option CollectionError :=
  firstErrRead l.reverse

theorem raceLoop_eq_firstOk {α : Type} :
    ∀ l : List (Except CollectionError α), raceLoop l = firstOkRead l := by
  intro l
  induction l with
  | nil => rfl
  | cons r rest ih =>
    cases r with
    | ok v => simp [raceLoop, firstOkRead, List.findSome?_cons]
    | error e => simp [raceLoop, firstOkRead, List.findSome?_cons] at ih ⊢; exact ih

theorem fanOutLoop_fst {α : Type} :
    ∀ (l : List (Except CollectionError α)) (captured : Option CollectionError),
      (fanOutLoop l captured).1 = firstOkRead l := by
  intro l
  induction l with
  | nil => intro c; rfl
  | cons r rest ih =>
    intro c
    cases r with
    | ok v => simp [fanOutLoop, firstOkRead, List.findSome?_cons]
    | error e =>
      simp only [fanOutLoop, firstOkRead, List.findSome?_cons]
      simpa [firstOkRead] using ih (some e)

theorem fanOutLoop_snd_all_err {α : Type} :
    ∀ (l : List (Except CollectionError α)) (captured : Option CollectionError),
      firstOkRead l = none →
      (fanOutLoop l captured).2 =
        match lastErrRead l with
        | some e => some e
        | none => captured := by
  intro l
  induction l with
  | nil => intro c _; rfl
  | cons r rest ih =>
    intro c h
    cases r with
    | ok v => simp [firstOkRead, List.findSome?_cons] at h
    | error e =>
      simp only [firstOkRead, List.findSome?_cons] at h
      have hrest : firstOkRead rest = none := h
      simp only [fanOutLoop]
      rw [ih (some e) hrest]
      unfold lastErrRead
      cases hrev : firstErrRead rest.reverse with
      | some e2 =>
        have : firstErrRead ((Except.error e :: rest).reverse) = some e2 := by
          simp only [List.reverse_cons]
          unfold firstErrRead at hrev ⊢
          rw [List.findSome?_append, hrev]
          rfl
        rw [this]
      | none =>
        have : firstErrRead ((Except.error e :: rest).reverse) = some e := by
          simp only [List.reverse_cons]
          unfold firstErrRead at hrev ⊢
          rw [List.findSome?_append, hrev]
          rfl
        rw [this]

/-- The tier-2 read results of a replica set. -/
def tier2Results {α : Type} (rs : ReadReplicaSet α) : List (Except CollectionError α) :=
  ((activeReadRemotes rs).take (fanOutSelection rs)).map (fun r => r.readResult)

/-- The tier-3 read results of a replica set. -/
def tier3Results {α : Type} (rs : ReadReplicaSet α) : List (Except CollectionError α) :=
  ((activeReadRemotes rs).drop (fanOutSelection rs)).map (fun r => r.readResult)

/-- C5 (amended).  Reads try three tiers in order until one succeeds: the
local replica when active, then the first `min(active_remotes,
read_remote_replicas)` active remotes (first success wins), then the
remaining active remotes (first success wins).  When there is no active
remote at all the call fails with the "no active replica" service error even
if a local error was already observed; and when every tier fails, the LAST
error captured during the tier-2 fan-out — not the first captured error — is
returned. -/
theorem c5_read_tiers {α : Type} (rs : ReadReplicaSet α) :
    execute_read_operation rs =
      match localReadAttempt rs with
      | some v => .ok v
      | none =>
        match activeReadRemotes rs with
        | [] => .err (.serviceError (noActiveReplicaMsg rs.shard_id rs.this_peer_id))
        | _ :: _ =>
          match firstOkRead (tier2Results rs) with
          | some v => .ok v
          | none =>
            match firstOkRead (tier3Results rs) with
            | some v => .ok v
            | none =>
              match lastErrRead (tier2Results rs) with
              | some e => .err e
              | none => .panicked := by
  unfold execute_read_operation tier2Results tier3Results fanOutSelection
  cases hloc : localReadAttempt rs with
  | some v => rfl
  | none =>
    simp only
    generalize activeReadRemotes rs = A
    cases A with
    | nil => rfl
    | cons r rest =>
      simp only [List.isEmpty_cons, Bool.false_eq_true, if_false]
      generalize hT2 : (List.map (fun x => x.readResult)
        (List.take (min (List.length (r :: rest)) rs.read_remote_replicas) (r :: rest))) = T2
      generalize hT3 : (List.map (fun x => x.readResult)
        (List.drop (min (List.length (r :: rest)) rs.read_remote_replicas) (r :: rest))) = T3
      have hfo := fanOutLoop_fst (α := α) T2 none
      cases hpair : fanOutLoop T2 none with
      | mk a captured =>
        rw [hpair] at hfo
        simp only at hfo
        cases a with
        | some v =>
          rw [← hfo]
        | none =>
          rw [← hfo]
          rw [raceLoop_eq_firstOk]
          cases h3 : firstOkRead T3 with
          | some v => rfl
          | none =>
            have hcap := fanOutLoop_snd_all_err T2 none hfo.symm
            rw [hpair] at hcap
            simp only at hcap
            rw [hcap]
            cases hlast : lastErrRead T2 with
            | some e => rfl
            | none => rfl

/-- A replica set with no local replica and two active remotes whose reads
fail with distinct errors. -/
def c5CexState : ReadReplicaSet Nat :=
  { shard_id := 0
    this_peer_id := 1
    localShard := none
    remotes := [{ peer_id := 2, readResult := .error (.serviceError "e1") },
                { peer_id := 3, readResult := .error (.serviceError "e2") }]
    replica_state := [(2, true), (3, true)]
    read_remote_replicas := READ_REMOTE_REPLICAS }

/-- C5 counterexample.  With two active remotes both failing, the first
captured error is "e1", yet `execute_read_operation` returns "e2": the loop
overwrites `captured_error` on every failure, so the LAST tier-2 error is
surfaced, not the first. -/
theorem c5_counterexample :
    firstErrRead ((activeReadRemotes c5CexState).map (fun r => r.readResult)) =
      some (.serviceError "e1") ∧
    execute_read_operation c5CexState = .err (.serviceError "e2") ∧
    (CollectionError.serviceError "e2") ≠ (.serviceError "e1") := by
  refine ⟨rfl, rfl, ?_⟩
  decide

/-! ## C4 — Collection::update_from_client (collection.rs) -/

/-- Result of `update_from_client`; `panicked` embeds the two `unwrap`s of
the source (`find(..).unwrap()` and `pop().unwrap()`). -/
inductive ClientUpdateOutcome where
  | ok (r : UpdateResult)
  | err (e : CollectionError)
  | panicked
deriving DecidableEq

/-- `matches!(result, Err(_))`. -/
def isErrResult (r : Except CollectionError UpdateResult) : Bool :=
  match r with
  | .error _ => true
  | .ok _ => false

/-- Embedding of the result aggregation of `Collection::update_from_client`
after the per-shard `update` calls completed; `results` lists the per-shard
outcomes in shard order (one request per shard, so `results.length` is the
number of shards that took part). -/
def update_from_client (results : List (Except CollectionError UpdateResult)) :
    ClientUpdateOutcome :=
  if 0 < (results.filter isErrResult).length then
    match results.find? isErrResult with
    | some (.error err) =>
      if (results.filter isErrResult).length < results.length then
        .err (.inconsistentShardFailure results.length (results.filter isErrResult).length err)
      else .err err
    | _ => .panicked
  else
    match results.getLast? with
    | some (.ok r) => .ok r
    | some (.error e) => .err e
    | none => .panicked

theorem mem_of_getLast? {α : Type} :
    ∀ (l : List α) (a : α), l.getLast? = some a → a ∈ l
  | [], a, h => by simp at h
  | [x], a, h => by
    simp at h
    simp [h]
  | x :: y :: rest, a, h => by
    rw [List.getLast?_cons_cons] at h
    exact List.mem_cons_of_mem x (mem_of_getLast? (y :: rest) a h)

theorem find?_isErr_of_firstErr :
    ∀ (results : List (Except CollectionError UpdateResult)) (e : CollectionError),
      firstErrRead results = some e → results.find? isErrResult = some (.error e) := by
  intro results
  induction results with
  | nil => intro e h; simp [firstErrRead, List.findSome?] at h
  | cons r rest ih =>
    intro e h
    unfold firstErrRead at h
    rw [List.findSome?_cons] at h
    cases r with
    | error e2 =>
      simp only at h
      cases h
      simp [List.find?, isErrResult]
    | ok v =>
      simp only at h
      rw [List.find?_cons_of_neg _ (by simp [isErrResult])]
      exact ih e h

theorem no_error_of_filter_len_zero
    (results : List (Except CollectionError UpdateResult))
    (h : (results.filter isErrResult).length = 0) :
    ∀ r ∈ results, isErrResult r = false := by
  rw [List.length_eq_zero] at h
  intro r hr
  have := List.filter_eq_nil_iff.mp h r hr
  simpa using this

/-- C4: per-shard fan-out aggregation of a client upsert.  If every shard
request failed the first error is returned unchanged; if some but not all
failed, an `InconsistentShardFailure` carrying the total shard count, the
failed shard count and the first error is returned; if none failed a success
result is returned. -/
theorem c4_update_from_client_spec
    (results : List (Except CollectionError UpdateResult)) (hne : results ≠ []) :
    ((results.filter isErrResult).length = results.length →
      ∀ e, firstErrRead results = some e → update_from_client results = .err e) ∧
    (0 < (results.filter isErrResult).length →
      (results.filter isErrResult).length < results.length →
      ∀ e, firstErrRead results = some e →
        update_from_client results =
          .err (.inconsistentShardFailure results.length
            (results.filter isErrResult).length e)) ∧
    ((results.filter isErrResult).length = 0 →
      ∃ r, update_from_client results = .ok r) := by
  refine ⟨?_, ?_, ?_⟩
  · intro hall e he
    have hpos : 0 < (results.filter isErrResult).length := by
      rw [hall]
      exact List.length_pos.mpr hne
    unfold update_from_client
    rw [if_pos hpos, find?_isErr_of_firstErr results e he]
    simp only
    rw [if_neg (by omega)]
  · intro hpos hlt e he
    unfold update_from_client
    rw [if_pos hpos, find?_isErr_of_firstErr results e he]
    simp only
    rw [if_pos hlt]
  · intro hzero
    unfold update_from_client
    rw [if_neg (by omega)]
    have hlast : ∃ a, results.getLast? = some a := by
      cases hl : results.getLast? with
      | some a => exact ⟨a, rfl⟩
      | none => exact absurd (by simpa using hl) hne
    obtain ⟨a, ha⟩ := hlast
    have hmem := mem_of_getLast? results a ha
    have hok := no_error_of_filter_len_zero results hzero a hmem
    cases a with
    | error e => simp [isErrResult] at hok
    | ok r =>
      rw [ha]
      exact ⟨r, rfl⟩

/-- C4 witness: one failing shard out of two yields an
`InconsistentShardFailure` carrying totals 2 and 1 and the first error. -/
theorem c4_update_from_client_witness :
    update_from_client [.ok { opNum := 1 }, .error .timeout] =
      .err (.inconsistentShardFailure 2 1 .timeout) := by
  have h := c4_update_from_client_spec [.ok { opNum := 1 }, .error .timeout] (by simp)
  exact h.2.1 (by decide) (by decide) .timeout rfl

/-! ## C6 — Collection::scroll_by (collection.rs) -/

/-- A scrolled record: point id plus an opaque content tag standing for the
payload/vector data.  Sorting compares ids only, as in the source. -/
structure ScrollPoint where
  id : Nat
  content : Nat
deriving DecidableEq, Repr

structure ScrollResult where
  points : List ScrollPoint
  next_page_offset : Option Nat
deriving DecidableEq, Repr

/-- Result of `scroll_by`; `panicked` embeds `points.pop().unwrap()`. -/
inductive ScrollOutcome where
  | ok (r : ScrollResult)
  | err (e : CollectionError)
  | panicked
deriving DecidableEq

/-- Stable insertion by point id. -/
def insertById (x : ScrollPoint) : List ScrollPoint → List ScrollPoint
  | [] => [x]
  | y :: ys => if x.id ≤ y.id then x :: y :: ys else y :: insertById x ys

/-- Stable sort by point id, embedding `itertools::sorted_by_key(|p| p.id)`. -/
def sortById : List ScrollPoint → List ScrollPoint
  | [] => []
  | x :: xs => insertById x (sortById xs)

/-- Embedding of `Collection::scroll_by` after the `limit`/`with_payload`
defaults were applied; each target shard is an oracle `fetch offset limit`
standing for its `scroll_by(offset, limit, ..)` RPC with the filter fixed. -/
def scroll_by (shards : List (Option Nat → Nat → List ScrollPoint))
    (offset : Option Nat) (limit : Nat) : ScrollOutcome :=
  if limit = 0 then .err (.badRequest "Limit cannot be 0")
  else
    match (sortById (shards.map (fun fetch => fetch offset (limit + 1))).flatten).take
        (limit + 1) with
    | points =>
      if points.length < limit + 1 then
        .ok { points := points, next_page_offset := none }
      else
        match points.getLast? with
        | some lastPoint =>
          .ok { points := points.dropLast, next_page_offset := some lastPoint.id }
        | none => .panicked

/-- C6: scroll pagination.  A limit of 0 is rejected as a client error;
otherwise `limit+1` records are fetched per target shard with the given
offset, the results are flattened, sorted by point id and truncated to
`limit+1`; the returned page is the first `limit` of them and the
`(limit+1)`-th point's id, when present, becomes `next_page_offset`. -/
theorem c6_scroll_by_spec (shards : List (Option Nat → Nat → List ScrollPoint))
    (offset : Option Nat) (limit : Nat) :
    (limit = 0 → scroll_by shards offset limit = .err (.badRequest "Limit cannot be 0")) ∧
    (0 < limit →
      scroll_by shards offset limit =
        .ok { points :=
                (sortById (shards.map (fun fetch => fetch offset (limit + 1))).flatten).take limit,
              next_page_offset :=
                ((sortById (shards.map (fun fetch => fetch offset (limit + 1))).flatten).get?
                  limit).map ScrollPoint.id }) := by
  constructor
  · intro h0
    unfold scroll_by
    rw [if_pos h0]
  · intro hpos
    unfold scroll_by
    rw [if_neg (by omega)]
    generalize sortById (shards.map (fun fetch => fetch offset (limit + 1))).flatten = A
    by_cases hlen : A.length < limit + 1
    · have htake : A.take (limit + 1) = A := List.take_of_length_le (by omega)
      have htake2 : A.take limit = A := List.take_of_length_le (by omega)
      have hget : A.get? limit = none := List.get?_eq_none.mpr (by omega)
      rw [htake, if_pos hlen, htake2, hget]
      rfl
    · have hlenA : limit + 1 ≤ A.length := by omega
      have hlentake : (A.take (limit + 1)).length = limit + 1 := by
        rw [List.length_take]
        omega
      have hnot : ¬((A.take (limit + 1)).length < limit + 1) := by omega
      rw [if_neg hnot]
      have hlast : (A.take (limit + 1)).getLast? = A.get? limit := by
        rw [List.getLast?_eq_getElem?, List.get?_eq_getElem?, hlentake]
        simp only [Nat.add_sub_cancel]
        simp [List.getElem?_take, Nat.lt_succ_self]
      have hdrop : (A.take (limit + 1)).dropLast = A.take limit := by
        rw [List.dropLast_eq_take, hlentake]
        simp only [Nat.add_sub_cancel]
        rw [List.take_take]
        simp
      cases hget : A.get? limit with
      | none =>
        rw [List.get?_eq_none] at hget
        omega
      | some p =>
        rw [hget] at hlast
        rw [hlast, hdrop]
        rfl

/-- Two concrete shards for the scroll witness. -/
def c6Shards : List (Option Nat → Nat → List ScrollPoint) :=
  [fun _ _ => [{ id := 2, content := 0 }, { id := 1, content := 0 }],
   fun _ _ => [{ id := 3, content := 0 }]]

/-- C6 witness: limit 0 is rejected; limit 2 over three available points
returns the first two sorted points and offset 3 for the next page. -/
theorem c6_scroll_by_witness :
    scroll_by c6Shards none 0 = .err (.badRequest "Limit cannot be 0") ∧
    scroll_by c6Shards none 2 =
      .ok { points := [{ id := 1, content := 0 }, { id := 2, content := 0 }],
            next_page_offset := some 3 } := by
  constructor
  · exact (c6_scroll_by_spec c6Shards none 0).1 rfl
  · exact ((c6_scroll_by_spec c6Shards none 2).2 (by decide)).trans (by rfl)

/-! ## C7 — Collection::_search_batch (collection.rs) -/

/-- A scored point.  Scores are `f32` in the source; the merge/offset logic
only compares scores, so they are embedded as integers. -/
structure ScoredPoint where
  id : Nat
  score : Int
deriving DecidableEq, Repr

/-- `Order::LargeBetter` / `Order::SmallBetter` of the distance metric. -/
inductive DistOrder where
  | largeBetter
  | smallBetter
deriving DecidableEq, Repr

/-- The fields of a `SearchRequest` the batch merge reads. -/
structure SearchReq where
  vectorName : String
  limit : Nat
  offset : Nat
deriving DecidableEq, Repr

def insertDescByScore (x : ScoredPoint) : List ScoredPoint → List ScoredPoint
  | [] => [x]
  | y :: ys => if y.score ≤ x.score then x :: y :: ys else y :: insertDescByScore x ys

def sortDescByScore : List ScoredPoint → List ScoredPoint
  | [] => []
  | x :: xs => insertDescByScore x (sortDescByScore xs)

def insertAscByScore (x : ScoredPoint) : List ScoredPoint → List ScoredPoint
  | [] => [x]
  | y :: ys => if x.score ≤ y.score then x :: y :: ys else y :: insertAscByScore x ys

def sortAscByScore : List ScoredPoint → List ScoredPoint
  | [] => []
  | x :: xs => insertAscByScore x (sortAscByScore xs)

/-- Modelled from the spec: `peek_top_largest_iterable` lives in the segment
crate, which is not under `src/`; the spec says merged results are reduced to
the top `limit + offset` by the distance's order.  Embedded as sorting by
descending score and truncating to `k`. -/
def peek_top_largest_iterable (l : List ScoredPoint) (k : Nat) : List ScoredPoint :=
  (sortDescByScore l).take k

/-- Modelled from the spec: counterpart of `peek_top_largest_iterable` for
`Order::SmallBetter` distances. -/
def peek_top_smallest_iterable (l : List ScoredPoint) (k : Nat) : List ScoredPoint :=
  (sortAscByScore l).take k

/-- The merge-by-query-index step of `_search_batch`: entry `i` collects the
`i`-th per-query result of every shard, in shard order. -/
def mergedResults (requests : List SearchReq)
    (shardsResults : List (List (List ScoredPoint))) : List (List ScoredPoint) :=
  (List.range requests.length).map (fun i =>
    (shardsResults.map (fun shardRes => (shardRes.get? i).getD [])).flatten)

/-- `collect::<CollectionResult<Vec<_>>>()`: first error wins. -/
def collectResults : List (Except CollectionError (List ScoredPoint)) →
    Except CollectionError (List (List ScoredPoint))
  | [] => .ok []
  | .error e :: _ => .error e
  | .ok v :: rest =>
    match collectResults rest with
    | .error e => .error e
    | .ok vs => .ok (v :: vs)

def vectorNotFoundMsg (name : String) : String :=
  s!"Vector params for {name} are not specified in config"

/-- Embedding of the per-query reduction of `_search_batch`: top
`limit + offset` by the distance order, then the offset drain for client
calls. -/
def searchQueryReduce (params : List (String × DistOrder)) (shard_selection : Option ShardId)
    (mr : List ScoredPoint × SearchReq) : Except CollectionError (List ScoredPoint) :=
  match params.lookup mr.2.vectorName with
  | none => .error (.badRequest (vectorNotFoundMsg mr.2.vectorName))
  | some order =>
    match
      (match order with
       | .largeBetter => peek_top_largest_iterable mr.1 (mr.2.limit + mr.2.offset)
       | .smallBetter => peek_top_smallest_iterable mr.1 (mr.2.limit + mr.2.offset)) with
    | top_res =>
      if shard_selection.isNone && decide (0 < mr.2.offset) then
        if mr.2.offset ≤ top_res.length then .ok (top_res.drop mr.2.offset)
        else .ok []
      else .ok top_res

/-- Embedding of `Collection::_search_batch` after the per-shard searches
completed: `shardsResults` lists, per shard, the per-query result lists. -/
def _search_batch (params : List (String × DistOrder)) (requests : List SearchReq)
    (shardsResults : List (List (List ScoredPoint))) (shard_selection : Option ShardId) :
    Except CollectionError (List (List ScoredPoint)) :=
  collectResults
    (((mergedResults requests shardsResults).zip requests).map
      (searchQueryReduce params shard_selection))

/-- The top `limit + offset` of one query, by the request's distance order. -/
def topByOrder (order : DistOrder) (k : Nat) (l : List ScoredPoint) : List ScoredPoint :=
  match order with
  | .largeBetter => peek_top_largest_iterable l k
  | .smallBetter => peek_top_smallest_iterable l k

theorem searchQueryReduce_ok (params : List (String × DistOrder))
    (sel : Option ShardId) (mr : List ScoredPoint × SearchReq) (order : DistOrder)
    (h : params.lookup mr.2.vectorName = some order) :
    searchQueryReduce params sel mr =
      .ok (if sel.isNone then
            (topByOrder order (mr.2.limit + mr.2.offset) mr.1).drop mr.2.offset
          else topByOrder order (mr.2.limit + mr.2.offset) mr.1) := by
  unfold searchQueryReduce topByOrder
  rw [h]
  simp only
  cases hsel : sel.isNone with
  | false => simp
  | true =>
    simp only [Bool.true_and, if_true]
    by_cases hoff : 0 < mr.2.offset
    · rw [show decide (0 < mr.2.offset) = true by simpa using hoff, if_pos rfl]
      cases order with
      | largeBetter =>
        simp only
        by_cases hlen : mr.2.offset ≤ (peek_top_largest_iterable mr.1 (mr.2.limit + mr.2.offset)).length
        · rw [if_pos hlen]
        · rw [if_neg hlen]
          rw [List.drop_eq_nil_of_le (by omega)]
      | smallBetter =>
        simp only
        by_cases hlen : mr.2.offset ≤ (peek_top_smallest_iterable mr.1 (mr.2.limit + mr.2.offset)).length
        · rw [if_pos hlen]
        · rw [if_neg hlen]
          rw [List.drop_eq_nil_of_le (by omega)]
    · have hz : mr.2.offset = 0 := by omega
      simp [hz]

theorem collect_map_ok (params : List (String × DistOrder)) (sel : Option ShardId) :
    ∀ L : List (List ScoredPoint × SearchReq),
      (∀ mr ∈ L, (params.lookup mr.2.vectorName).isSome = true) →
      collectResults (L.map (searchQueryReduce params sel)) =
        .ok (L.map (fun mr =>
          match params.lookup mr.2.vectorName with
          | some order =>
            if sel.isNone then
              (topByOrder order (mr.2.limit + mr.2.offset) mr.1).drop mr.2.offset
            else topByOrder order (mr.2.limit + mr.2.offset) mr.1
          | none => [])) := by
  intro L
  induction L with
  | nil => intro _; rfl
  | cons mr rest ih =>
    intro h
    have hhead := h mr (List.mem_cons_self mr rest)
    obtain ⟨order, horder⟩ := Option.isSome_iff_exists.mp hhead
    have hrest := ih (fun x hx => h x (List.mem_cons_of_mem mr hx))
    simp only [List.map_cons]
    rw [show collectResults (searchQueryReduce params sel mr ::
        rest.map (searchQueryReduce params sel)) =
      (match searchQueryReduce params sel mr with
       | .error e => .error e
       | .ok v =>
         match collectResults (rest.map (searchQueryReduce params sel)) with
         | .error e => .error e
         | .ok vs => .ok (v :: vs)) by
      cases hq : searchQueryReduce params sel mr with
      | error e => simp [collectResults, hq]
      | ok v => simp [collectResults, hq]]
    rw [searchQueryReduce_ok params sel mr order horder, hrest, horder]

/-- C7: per query, merged per-shard results are reduced to the top
`limit + offset` by the distance's order, and the first `offset` results are
then dropped if and only if the call is client-facing (`shard_selection` is
`None`); with `shard_selection` present the offset is never applied. -/
theorem c7_search_offset_semantics (params : List (String × DistOrder))
    (requests : List SearchReq) (shardsResults : List (List (List ScoredPoint)))
    (sel : Option ShardId)
    (h : ∀ req ∈ requests, (params.lookup req.vectorName).isSome = true) :
    _search_batch params requests shardsResults sel =
      .ok (((mergedResults requests shardsResults).zip requests).map (fun mr =>
        match params.lookup mr.2.vectorName with
        | some order =>
          if sel.isNone then
            (topByOrder order (mr.2.limit + mr.2.offset) mr.1).drop mr.2.offset
          else topByOrder order (mr.2.limit + mr.2.offset) mr.1
        | none => [])) := by
  unfold _search_batch
  apply collect_map_ok
  intro mr hmr
  obtain ⟨a, b⟩ := mr
  exact h b (List.of_mem_zip hmr).2

/-- C7 witness: one client-facing query with limit 1 and offset 1 over two
shards drops exactly the first of the top-2 results; the same call with a
shard selection keeps both. -/
theorem c7_search_offset_witness :
    _search_batch [("v", .largeBetter)] [{ vectorName := "v", limit := 1, offset := 1 }]
        [[[{ id := 1, score := 10 }, { id := 2, score := 5 }]], [[{ id := 3, score := 7 }]]]
        none =
      .ok [[{ id := 3, score := 7 }]] ∧
    _search_batch [("v", .largeBetter)] [{ vectorName := "v", limit := 1, offset := 1 }]
        [[[{ id := 1, score := 10 }, { id := 2, score := 5 }]], [[{ id := 3, score := 7 }]]]
        (some 0) =
      .ok [[{ id := 1, score := 10 }, { id := 3, score := 7 }]] := by
  constructor
  · exact (c7_search_offset_semantics [("v", .largeBetter)]
      [{ vectorName := "v", limit := 1, offset := 1 }]
      [[[{ id := 1, score := 10 }, { id := 2, score := 5 }]], [[{ id := 3, score := 7 }]]]
      none (by decide)).trans (by rfl)
  · exact (c7_search_offset_semantics [("v", .largeBetter)]
      [{ vectorName := "v", limit := 1, offset := 1 }]
      [[[{ id := 1, score := 10 }, { id := 2, score := 5 }]], [[{ id := 3, score := 7 }]]]
      (some 0) (by decide)).trans (by rfl)

/-! ## C3 — ConsensusState storage contract (consensus_state.rs) -/

/-- A raft log entry; only index and term are relevant here. -/
structure RaftEntryL where
  index : Nat
  term : Nat
deriving DecidableEq, Repr

/-- The latest snapshot metadata of the persistent state. -/
structure SnapshotMetaL where
  index : Nat
  term : Nat
deriving DecidableEq, Repr

/-- Modelled from the spec: `ConsensusOpWal` (consensus_wal.rs) is not under
`src/`.  The spec describes it as the persistent WAL of raft entries; a raft
WAL holds a contiguous run, so entry `i` of `terms` has index
`firstIdx + i`. -/
structure ConsensusOpWal where
  firstIdx : Nat
  terms : List Nat
deriving DecidableEq, Repr

/-- The stored entries, in index order. -/
def ConsensusOpWal.entriesList (w : ConsensusOpWal) : List RaftEntryL :=
  (List.range w.terms.length).map
    (fun i => { index := w.firstIdx + i, term := w.terms.getD i 0 })

/-- Modelled from the spec: `ConsensusOpWal::first_entry`. -/
def ConsensusOpWal.first_entry (w : ConsensusOpWal) : Option RaftEntryL :=
  match w.terms with
  | [] => none
  | t :: _ => some { index := w.firstIdx, term := t }

/-- Modelled from the spec: `ConsensusOpWal::last_entry`. -/
def ConsensusOpWal.last_entry (w : ConsensusOpWal) : Option RaftEntryL :=
  match w.terms.getLast? with
  | none => none
  | some t => some { index := w.firstIdx + w.terms.length - 1, term := t }

/-- Modelled from the spec: `ConsensusOpWal::entries(lo, hi, max_size)` —
"entries honours max_size but must return at least one entry if lo < high".
`max_size` counts entries here (bytes in the source); `none` means no
limit. -/
def ConsensusOpWal.entriesRange (w : ConsensusOpWal) (lo hi : Nat) (maxSize : Option Nat) :
    List RaftEntryL :=
  match maxSize with
  | none => w.entriesList.filter (fun e => decide (lo ≤ e.index ∧ e.index < hi))
  | some m => (w.entriesList.filter (fun e => decide (lo ≤ e.index ∧ e.index < hi))).take (max 1 m)

/-- The fields of `ConsensusState` its `Storage` implementation reads. -/
structure ConsensusStore where
  wal : ConsensusOpWal
  snapshotMeta : SnapshotMetaL
deriving DecidableEq, Repr

/-- Embedding of `ConsensusState::first_index` (`Storage` impl). -/
def first_index (s : ConsensusStore) : Nat :=
  match s.wal.first_entry with
  | some entry => entry.index
  | none => s.snapshotMeta.index + 1

/-- Embedding of `ConsensusState::last_index` (`Storage` impl). -/
def last_index (s : ConsensusStore) : Nat :=
  match s.wal.last_entry with
  | some entry => entry.index
  | none => s.snapshotMeta.index

/-- Result of `entries`; `compacted` is `raft::StorageError::Compacted`,
`panicked` the "index out of bound" panic. -/
inductive EntriesResult where
  | ok (es : List RaftEntryL)
  | compacted
  | panicked
deriving DecidableEq, Repr

/-- Embedding of `ConsensusState::entries`. -/
def entries (s : ConsensusStore) (low high : Nat) (maxSize : Option Nat) : EntriesResult :=
  if low < first_index s then .compacted
  else if high > last_index s + 1 then .panicked
  else .ok (s.wal.entriesRange low high maxSize)

theorem entriesRange_ne_nil (w : ConsensusOpWal) (lo hi : Nat) (maxSize : Option Nat)
    (hlo : w.firstIdx ≤ lo) (hhi : lo < hi) (hub : lo < w.firstIdx + w.terms.length) :
    w.entriesRange lo hi maxSize ≠ [] := by
  have hmem : ({ index := lo, term := w.terms.getD (lo - w.firstIdx) 0 } : RaftEntryL) ∈
      w.entriesList.filter (fun e => decide (lo ≤ e.index ∧ e.index < hi)) := by
    apply List.mem_filter.mpr
    constructor
    · unfold ConsensusOpWal.entriesList
      apply List.mem_map.mpr
      refine ⟨lo - w.firstIdx, List.mem_range.mpr (by omega), ?_⟩
      have heq : w.firstIdx + (lo - w.firstIdx) = lo := by omega
      rw [heq]
    · simp only [decide_eq_true_eq]
      exact ⟨Nat.le_refl lo, hhi⟩
  have hne : w.entriesList.filter (fun e => decide (lo ≤ e.index ∧ e.index < hi)) ≠ [] :=
    List.ne_nil_of_mem hmem
  unfold ConsensusOpWal.entriesRange
  cases maxSize with
  | none => exact hne
  | some m =>
    cases hfl : w.entriesList.filter (fun e => decide (lo ≤ e.index ∧ e.index < hi)) with
    | nil => exact absurd hfl hne
    | cons a rest =>
      cases hm : max 1 m with
      | zero =>
        exfalso
        have := Nat.le_max_left 1 m
        omega
      | succ k => simp [List.take]

theorem c3_entries_contract (s : ConsensusStore) (lo hi : Nat) (maxSize : Option Nat) :
    (lo < first_index s → entries s lo hi maxSize = .compacted) ∧
    (first_index s ≤ lo → last_index s + 1 < hi → entries s lo hi maxSize = .panicked) ∧
    (first_index s ≤ lo → lo < hi → hi ≤ last_index s + 1 →
      entries s lo hi maxSize = .ok (s.wal.entriesRange lo hi maxSize) ∧
      s.wal.entriesRange lo hi maxSize ≠ [] ∧
      (∀ m, maxSize = some m → (s.wal.entriesRange lo hi maxSize).length ≤ max 1 m)) ∧
    (∀ fi, s.wal.first_entry.map RaftEntryL.index = some fi →
      fi ≤ s.snapshotMeta.index + 1 → first_index s = min fi (s.snapshotMeta.index + 1)) ∧
    (s.wal.first_entry = none → first_index s = s.snapshotMeta.index + 1) ∧
    (∀ li, s.wal.last_entry.map RaftEntryL.index = some li →
      s.snapshotMeta.index ≤ li → last_index s = max li s.snapshotMeta.index) ∧
    (s.wal.last_entry = none → last_index s = s.snapshotMeta.index) := by
  refine ⟨?_, ?_, ?_, ?_, ?_, ?_, ?_⟩
  · intro h
    unfold entries
    rw [if_pos h]
  · intro h1 h2
    unfold entries
    rw [if_neg (by omega), if_pos (by omega)]
  · intro h1 h2 h3
    refine ⟨?_, ?_, ?_⟩
    · unfold entries
      rw [if_neg (by omega), if_neg (by omega)]
    · cases hterm : s.wal.terms with
      | nil =>
        exfalso
        have hfe : s.wal.first_entry = none := by
          unfold ConsensusOpWal.first_entry
          rw [hterm]
        have hle : s.wal.last_entry = none := by
          unfold ConsensusOpWal.last_entry
          rw [hterm]
          rfl
        unfold first_index at h1
        unfold last_index at h3
        rw [hfe] at h1
        rw [hle] at h3
        simp only at h1 h3
        omega
      | cons t ts =>
        apply entriesRange_ne_nil
        · have hfe : s.wal.first_entry = some { index := s.wal.firstIdx, term := t } := by
            unfold ConsensusOpWal.first_entry
            rw [hterm]
          unfold first_index at h1
          rw [hfe] at h1
          exact h1
        · exact h2
        · have hglne : (t :: ts).getLast? ≠ none := by simp
          cases hgl : (t :: ts).getLast? with
          | none => exact absurd hgl hglne
          | some tl =>
            have hle : s.wal.last_entry =
                some { index := s.wal.firstIdx + s.wal.terms.length - 1, term := tl } := by
              unfold ConsensusOpWal.last_entry
              rw [hterm, hgl]
            unfold last_index at h3
            rw [hle] at h3
            simp only at h3
            rw [hterm]
            simp only [List.length_cons]
            rw [hterm] at h3
            simp only [List.length_cons] at h3
            omega
    · intro m hm
      rw [hm]
      unfold ConsensusOpWal.entriesRange
      simp only
      calc ((s.wal.entriesList.filter
              (fun e => decide (lo ≤ e.index ∧ e.index < hi))).take (max 1 m)).length
          = min (max 1 m) (s.wal.entriesList.filter
              (fun e => decide (lo ≤ e.index ∧ e.index < hi))).length := by
            rw [List.length_take]
        _ ≤ max 1 m := Nat.min_le_left _ _
  · intro fi hfi hle
    unfold first_index
    cases hfe : s.wal.first_entry with
    | none => rw [hfe] at hfi; simp at hfi
    | some e =>
      rw [hfe] at hfi
      have hfi2 : e.index = fi := by simpa using hfi
      simp only
      omega
  · intro h
    unfold first_index
    rw [h]
  · intro li hli hle
    unfold last_index
    cases hlast : s.wal.last_entry with
    | none => rw [hlast] at hli; simp at hli
    | some e =>
      rw [hlast] at hli
      have hli2 : e.index = li := by simpa using hli
      simp only
      omega
  · intro h
    unfold last_index
    rw [h]

/-- A stored log whose WAL starts beyond the snapshot: wal holds only entry
50, the snapshot is at index 40. -/
def c3CexStoreA : ConsensusStore :=
  { wal := { firstIdx := 50, terms := [3] }, snapshotMeta := { index := 40, term := 2 } }

/-- A stored log whose WAL ends before the snapshot: wal holds only entry 10,
the snapshot is at index 40. -/
def c3CexStoreB : ConsensusStore :=
  { wal := { firstIdx := 10, terms := [1] }, snapshotMeta := { index := 40, term := 2 } }

/-- C3 counterexample.  `first_index` is the WAL's first index whenever the
WAL is non-empty — not `min(wal.first.index, last_snapshot.index + 1)`: on a
store with wal = [entry 50] and snapshot index 40 it returns 50, not 41.
Dually `last_index` is not `max(wal.last.index, last_snapshot.index)`: with
wal = [entry 10] and snapshot index 40 it returns 10, not 40. -/
theorem c3_counterexample :
    c3CexStoreA.wal.first_entry = some { index := 50, term := 3 } ∧
    c3CexStoreA.snapshotMeta.index = 40 ∧
    first_index c3CexStoreA = 50 ∧
    first_index c3CexStoreA ≠ min 50 (40 + 1) ∧
    c3CexStoreB.wal.last_entry = some { index := 10, term := 1 } ∧
    c3CexStoreB.snapshotMeta.index = 40 ∧
    last_index c3CexStoreB = 10 ∧
    last_index c3CexStoreB ≠ max 10 40 := by
  decide

/-- Witness store: snapshot at 40, WAL entries 41..43. -/
def c3WitStore : ConsensusStore :=
  { wal := { firstIdx := 41, terms := [1, 1, 1] }, snapshotMeta := { index := 40, term := 1 } }

/-- C3 witness: a request below `first_index` is `Compacted`, one beyond
`last_index + 1` panics, a valid in-range request returns at least one entry
even with `max_size = 0`, and the index formulas agree with the min/max
forms on this contiguous store. -/
theorem c3_entries_witness :
    entries c3WitStore 30 44 none = .compacted ∧
    entries c3WitStore 41 50 none = .panicked ∧
    c3WitStore.wal.entriesRange 41 44 (some 0) ≠ [] ∧
    (c3WitStore.wal.entriesRange 41 44 (some 0)).length ≤ max 1 0 ∧
    first_index c3WitStore = min 41 (40 + 1) ∧
    last_index c3WitStore = max 43 40 := by
  refine ⟨(c3_entries_contract c3WitStore 30 44 none).1 (by decide),
    (c3_entries_contract c3WitStore 41 50 none).2.1 (by decide) (by decide),
    ((c3_entries_contract c3WitStore 41 44 (some 0)).2.2.1
      (by decide) (by decide) (by decide)).2.1,
    ((c3_entries_contract c3WitStore 41 44 (some 0)).2.2.1
      (by decide) (by decide) (by decide)).2.2 0 rfl,
    (c3_entries_contract c3WitStore 41 44 none).2.2.2.1 41 (by decide) (by decide),
    (c3_entries_contract c3WitStore 41 44 none).2.2.2.2.2.1 43 (by decide) (by decide)⟩

/-! ## C9 — ReplicaSet::apply_state (replica_set.rs) -/

/-- The variant of the boxed shard held in a replica set's local slot. -/
inductive ShardKind where
  | localKind
  | forwardProxyKind
  | remoteKind
  | proxyKind
  | replicaSetKind
deriving DecidableEq, Repr

/-- The fields of `ReplicaSet` that `apply_state` touches. -/
structure ReplicaSetC9 where
  shard_id : ShardId
  this_peer_id : PeerId
  localShard : Option ShardKind
  remotes : List PeerId
  replica_state : List (PeerId × Bool)
deriving DecidableEq, Repr

/-- Outcome of `apply_state`; `panicked` embeds the `todo!` macros of the
source, which panic at runtime. -/
inductive ApplyStateOutcome where
  | ok (rs : ReplicaSetC9)
  | err (e : CollectionError)
  | panicked (msg : String)
deriving DecidableEq, Repr

/-- Intermediate result of the removal loop of `apply_state`. -/
inductive C9Step where
  | cont (localShard : Option ShardKind) (remotes : List PeerId)
      (state : List (PeerId × Bool))
  | fail (e : CollectionError)
  | panic (msg : String)
deriving DecidableEq, Repr

/-- The `for peer_id in removed_peers` loop of `apply_state`.  Removing the
local replica drops it (a release build skips the `debug_assert!` when it is
already absent); removing a remote replica hits
`todo!("remote_shard.remove_peer(peer_id)")`. -/
def removeReplicas (this_peer : PeerId) :
    List PeerId → Option ShardKind → List PeerId → List (PeerId × Bool) → C9Step
  | [], localShard, remotes, st => .cont localShard remotes st
  | p :: rest, localShard, remotes, st =>
    if p = this_peer then
      match localShard with
      | some kind =>
        match kind with
        | .localKind =>
          removeReplicas this_peer rest none remotes (st.filter (fun pr => pr.1 != p))
        | .forwardProxyKind =>
          removeReplicas this_peer rest none remotes (st.filter (fun pr => pr.1 != p))
        | _ => .fail (.serviceError "Unexpected shard in replica set")
      | none =>
        removeReplicas this_peer rest none remotes (st.filter (fun pr => pr.1 != p))
    else if remotes.contains p then
      .panic "remote_shard.remove_peer(peer_id)"
    else
      removeReplicas this_peer rest localShard remotes (st.filter (fun pr => pr.1 != p))

/-- The `for (peer_id, is_active) in replicas` loop of `apply_state`: flags
of known peers are updated; a new peer hits one of the two `todo!` arms. -/
def applyFlags (this_peer : PeerId) :
    List (PeerId × Bool) → List (PeerId × Bool) → Except String (List (PeerId × Bool))
  | [], st => .ok st
  | (p, act) :: rest, st =>
    if (st.lookup p).isSome then
      applyFlags this_peer rest (st.map (fun pr => if pr.1 = p then (pr.1, act) else pr))
    else if p = this_peer then
      .error "clone replica from another peer or log error that it should be cloned with normal operation"
    else
      .error "Add remote replica"

/-- Embedding of `ReplicaSet::apply_state`.  The iteration orders of the two
`HashMap` walks are linearised in list order. -/
def apply_state (rs : ReplicaSetC9) (replicas : List (PeerId × Bool)) : ApplyStateOutcome :=
  match removeReplicas rs.this_peer_id
      ((rs.replica_state.map Prod.fst).filter (fun p => (replicas.lookup p).isNone))
      rs.localShard rs.remotes rs.replica_state with
  | .panic m => .panicked m
  | .fail e => .err e
  | .cont localShard remotes st =>
    match applyFlags rs.this_peer_id replicas st with
    | .error m => .panicked m
    | .ok st2 =>
      .ok { rs with localShard := localShard, remotes := remotes, replica_state := st2 }

/-- C9: `apply_state` does remove replicas absent from the target (first
conjunct: the local replica is dropped) and does update active flags of known
peers (second conjunct), but a target containing a NEW peer for which no
concrete shard exists does not return an error: it panics through
`todo!("Add remote replica")` (third conjunct). -/
theorem c9_apply_state_panics :
    apply_state
        { shard_id := 0, this_peer_id := 1, localShard := some .localKind,
          remotes := [], replica_state := [(1, true), (2, true)] }
        [(2, true)] =
      .ok { shard_id := 0, this_peer_id := 1, localShard := none,
            remotes := [], replica_state := [(2, true)] } ∧
    apply_state
        { shard_id := 0, this_peer_id := 1, localShard := some .localKind,
          remotes := [], replica_state := [(1, true)] }
        [(1, false)] =
      .ok { shard_id := 0, this_peer_id := 1, localShard := some .localKind,
            remotes := [], replica_state := [(1, false)] } ∧
    apply_state
        { shard_id := 0, this_peer_id := 1, localShard := some .localKind,
          remotes := [], replica_state := [(1, true)] }
        [(1, true), (2, true)] =
      .panicked "Add remote replica" := by
  refine ⟨rfl, rfl, rfl⟩

/-! ## C2 — Collection::finish_shard_transfer (collection.rs) -/

/-- The shard variant held at one slot of the shard holder. -/
inductive ShardSlot where
  | localSlot
  | remoteSlot (peer : PeerId)
  | forwardProxySlot (dest : PeerId)
  | proxySlot
  | replicaSetSlot (replicas : List (PeerId × Bool))
deriving DecidableEq, Repr

/-- A `ShardTransfer` record. -/
structure ShardTransferL where
  shard_id : ShardId
  fromPeer : PeerId
  toPeer : PeerId
  sync : Bool
deriving DecidableEq, Repr

/-- The collection state `finish_shard_transfer` touches: the shard holder's
slots, its temporary-shard ids, the registered transfer records, and the
keys of the transfer-task pool. -/
structure CollectionStateL where
  shards : List (ShardId × ShardSlot)
  temporaryShards : List ShardId
  shard_transfers : List ShardTransferL
  transfer_tasks : List ShardTransferL
deriving DecidableEq, Repr

/-- Modelled from the spec: `ShardHolder::register_finish_transfer`
(shard_holder.rs is not under `src/`) "removes `t`; returns `true` iff it was
present". -/
def register_finish_transfer (s : CollectionStateL) (t : ShardTransferL) :
    Bool × CollectionStateL :=
  (s.shard_transfers.contains t,
   { s with shard_transfers := s.shard_transfers.filter (fun x => x != t) })

/-- Modelled from the spec: `TransferTasksPool::stop_if_exists`
(transfer_tasks_pool.rs is not under `src/`) stops and removes the task for
`t`; `finish_shard_transfer` only reads whether the stopped task reported
`Finished`, modelled as the task key having been present. -/
def stop_if_exists (s : CollectionStateL) (t : ShardTransferL) : Bool × CollectionStateL :=
  (s.transfer_tasks.contains t,
   { s with transfer_tasks := s.transfer_tasks.filter (fun x => x != t) })

/-- Replace the slot stored under `id`. -/
def updateShard (shards : List (ShardId × ShardSlot)) (id : ShardId) (slot : ShardSlot) :
    List (ShardId × ShardSlot) :=
  shards.map (fun pr => if pr.1 = id then (pr.1, slot) else pr)

/-- Modelled from the spec: `activate_peer_for_replica` (shard_transfer.rs is
not under `src/`) — "if sync: activate the destination replica in the
replica-state map (destination-side effect)"; a no-op returning `false` on
peers that are not that role. -/
def activate_peer_for_replica (s : CollectionStateL) (id : ShardId) (toP : PeerId) :
    Bool × CollectionStateL :=
  match s.shards.lookup id with
  | some (.replicaSetSlot replicas) =>
    match replicas.lookup toP with
    | some false =>
      (true,
       { s with shards := (updateShard s.shards id
          (.replicaSetSlot (replicas.map (fun pr => if pr.1 = toP then (pr.1, true) else pr)))) })
    | _ => (false, s)
  | _ => (false, s)

/-- Modelled from the spec: `promote_proxy_to_remote_shard` — source-side:
the ForwardProxy at `shard_id` becomes a Remote pointing at `to`; a no-op
elsewhere. -/
def promote_proxy_to_remote_shard (s : CollectionStateL) (id : ShardId) (toP : PeerId) :
    Bool × CollectionStateL :=
  match s.shards.lookup id with
  | some (.forwardProxySlot _) =>
    (true, { s with shards := updateShard s.shards id (.remoteSlot toP) })
  | _ => (false, s)

/-- Modelled from the spec: `promote_temporary_shard_to_local` —
destination-side: the temporary shard at `shard_id` becomes the Local at the
canonical path; a no-op when no temporary exists. -/
def promote_temporary_shard_to_local (s : CollectionStateL) (id : ShardId) :
    Bool × CollectionStateL :=
  if s.temporaryShards.contains id then
    (true,
     { s with temporaryShards := s.temporaryShards.filter (fun x => x != id),
              shards := updateShard s.shards id .localSlot })
  else (false, s)

/-- Modelled from the spec: `change_remote_shard_route` — third-party side: a
Remote for `shard_id` is rewritten to address `to`; a no-op when absent or
already pointing there. -/
def change_remote_shard_route (s : CollectionStateL) (id : ShardId) (toP : PeerId) :
    Bool × CollectionStateL :=
  match s.shards.lookup id with
  | some (.remoteSlot p) =>
    if p != toP then (true, { s with shards := updateShard s.shards id (.remoteSlot toP) })
    else (false, s)
  | _ => (false, s)

/-- Embedding of `Collection::finish_shard_transfer`.  The
`transfer_finished` flag of the source only feeds a `debug_assert_eq!`; the
task is still removed from the pool by `stop_if_exists`. -/
def finish_shard_transfer (s : CollectionStateL) (t : ShardTransferL) :
    Bool × CollectionStateL :=
  let finish_was_registered := (register_finish_transfer s t).1
  let s1 := (register_finish_transfer s t).2
  let s2 := (stop_if_exists s1 t).2
  if t.sync then
    activate_peer_for_replica s2 t.shard_id t.toPeer
  else
    let proxy_promoted := (promote_proxy_to_remote_shard s2 t.shard_id t.toPeer).1
    let s3 := (promote_proxy_to_remote_shard s2 t.shard_id t.toPeer).2
    let shard_promoted := (promote_temporary_shard_to_local s3 t.shard_id).1
    let s4 := (promote_temporary_shard_to_local s3 t.shard_id).2
    let remote_shard_rerouted := (change_remote_shard_route s4 t.shard_id t.toPeer).1
    let s5 := (change_remote_shard_route s4 t.shard_id t.toPeer).2
    (finish_was_registered && (proxy_promoted || shard_promoted || remote_shard_rerouted), s5)

/-- The destination replica is present and inactive in the replica set at
`id` — the state in which the sync branch activates it. -/
def destReplicaInactive (s : CollectionStateL) (id : ShardId) (toP : PeerId) : Bool :=
  match s.shards.lookup id with
  | some (.replicaSetSlot replicas) =>
    match replicas.lookup toP with
    | some false => true
    | _ => false
  | _ => false

/-- A ForwardProxy sits at `id`. -/
def hasForwardProxy (s : CollectionStateL) (id : ShardId) : Bool :=
  match s.shards.lookup id with
  | some (.forwardProxySlot _) => true
  | _ => false

/-- A temporary shard exists for `id`. -/
def hasTemporary (s : CollectionStateL) (id : ShardId) : Bool :=
  s.temporaryShards.contains id

/-- A Remote for `id` points somewhere other than `toP`. -/
def remoteRouteDiffers (s : CollectionStateL) (id : ShardId) (toP : PeerId) : Bool :=
  match s.shards.lookup id with
  | some (.remoteSlot p) => p != toP
  | _ => false

theorem lookup_setKey {β : Type} (l : List (Nat × β)) (k : Nat) (v : β) :
    (l.map (fun pr => if pr.1 = k then (pr.1, v) else pr)).lookup k =
      (l.lookup k).map (fun _ => v) := by
  induction l with
  | nil => rfl
  | cons hd tl ih =>
    obtain ⟨a, b⟩ := hd
    simp only [List.map_cons]
    by_cases hak : a = k
    · subst hak
      simp only [if_pos rfl]
      rw [List.lookup, List.lookup]
      simp
    · have hne : (k == a) = false := by
        simp
        intro h
        exact hak h.symm
      simp only [if_neg hak]
      rw [List.lookup, List.lookup, hne]
      simp only
      exact ih

theorem contains_filter_ne {α : Type} [DecidableEq α] (l : List α) (t : α) :
    (l.filter (fun x => x != t)).contains t = false := by
  induction l with
  | nil => rfl
  | cons a rest ih =>
    by_cases hat : a = t
    · subst hat
      simp only [List.filter, bne_self_eq_false]
      exact ih
    · have h1 : (a != t) = true := by simpa using hat
      have h2 : (t == a) = false := by
        simp
        intro h
        exact hat h.symm
      simp only [List.filter, h1]
      rw [List.contains_cons]
      simp only [h2, Bool.false_or]
      exact ih

theorem activate_fst (s : CollectionStateL) (id : ShardId) (toP : PeerId) :
    (activate_peer_for_replica s id toP).1 = destReplicaInactive s id toP := by
  unfold activate_peer_for_replica destReplicaInactive
  cases h : s.shards.lookup id with
  | none => rfl
  | some slot =>
    cases slot with
    | replicaSetSlot reps =>
      simp only
      cases h2 : reps.lookup toP with
      | none => rfl
      | some b => cases b <;> rfl
    | localSlot => rfl
    | remoteSlot p => rfl
    | forwardProxySlot d => rfl
    | proxySlot => rfl

theorem proxy_fst (s : CollectionStateL) (id : ShardId) (toP : PeerId) :
    (promote_proxy_to_remote_shard s id toP).1 = hasForwardProxy s id := by
  unfold promote_proxy_to_remote_shard hasForwardProxy
  cases h : s.shards.lookup id with
  | none => rfl
  | some slot => cases slot <;> rfl

theorem temp_fst (s : CollectionStateL) (id : ShardId) :
    (promote_temporary_shard_to_local s id).1 = hasTemporary s id := by
  unfold promote_temporary_shard_to_local hasTemporary
  cases h : s.temporaryShards.contains id <;> simp [h]

theorem route_fst (s : CollectionStateL) (id : ShardId) (toP : PeerId) :
    (change_remote_shard_route s id toP).1 = remoteRouteDiffers s id toP := by
  unfold change_remote_shard_route remoteRouteDiffers
  cases h : s.shards.lookup id with
  | none => rfl
  | some slot =>
    cases slot with
    | remoteSlot p => cases hb : (p != toP) <;> simp [hb]
    | localSlot => rfl
    | forwardProxySlot d => rfl
    | proxySlot => rfl
    | replicaSetSlot reps => rfl

theorem proxy_no_change (s : CollectionStateL) (id : ShardId) (toP : PeerId)
    (h : hasForwardProxy s id = false) :
    promote_proxy_to_remote_shard s id toP = (false, s) := by
  unfold promote_proxy_to_remote_shard
  unfold hasForwardProxy at h
  cases hl : s.shards.lookup id with
  | none => rfl
  | some slot =>
    rw [hl] at h
    cases slot with
    | forwardProxySlot d => simp at h
    | localSlot => rfl
    | remoteSlot p => rfl
    | proxySlot => rfl
    | replicaSetSlot reps => rfl

theorem temp_no_change (s : CollectionStateL) (id : ShardId)
    (h : hasTemporary s id = false) :
    promote_temporary_shard_to_local s id = (false, s) := by
  unfold promote_temporary_shard_to_local
  unfold hasTemporary at h
  rw [h]
  rfl

theorem activate_preserves_transfers (s : CollectionStateL) (id : ShardId) (toP : PeerId) :
    (activate_peer_for_replica s id toP).2.shard_transfers = s.shard_transfers := by
  unfold activate_peer_for_replica
  cases h : s.shards.lookup id with
  | none => rfl
  | some slot =>
    cases slot with
    | replicaSetSlot reps =>
      simp only
      cases h2 : reps.lookup toP with
      | none => rfl
      | some b => cases b <;> rfl
    | localSlot => rfl
    | remoteSlot p => rfl
    | forwardProxySlot d => rfl
    | proxySlot => rfl

theorem proxy_preserves_transfers (s : CollectionStateL) (id : ShardId) (toP : PeerId) :
    (promote_proxy_to_remote_shard s id toP).2.shard_transfers = s.shard_transfers := by
  unfold promote_proxy_to_remote_shard
  cases h : s.shards.lookup id with
  | none => rfl
  | some slot => cases slot <;> rfl

theorem temp_preserves_transfers (s : CollectionStateL) (id : ShardId) :
    (promote_temporary_shard_to_local s id).2.shard_transfers = s.shard_transfers := by
  unfold promote_temporary_shard_to_local
  cases h : s.temporaryShards.contains id <;> simp [h]

theorem route_preserves_transfers (s : CollectionStateL) (id : ShardId) (toP : PeerId) :
    (change_remote_shard_route s id toP).2.shard_transfers = s.shard_transfers := by
  unfold change_remote_shard_route
  cases h : s.shards.lookup id with
  | none => rfl
  | some slot =>
    cases slot with
    | remoteSlot p => cases hb : (p != toP) <;> simp [hb]
    | localSlot => rfl
    | forwardProxySlot d => rfl
    | proxySlot => rfl
    | replicaSetSlot reps => rfl

theorem activate_not_inactive (s : CollectionStateL) (id : ShardId) (toP : PeerId) :
    destReplicaInactive (activate_peer_for_replica s id toP).2 id toP = false := by
  unfold activate_peer_for_replica
  cases hl : s.shards.lookup id with
  | none =>
    simp only
    unfold destReplicaInactive
    rw [hl]
  | some slot =>
    cases slot with
    | replicaSetSlot reps =>
      simp only
      cases h2 : reps.lookup toP with
      | none =>
        unfold destReplicaInactive
        rw [hl]
        simp only
        rw [h2]
      | some b =>
        cases b with
        | true =>
          unfold destReplicaInactive
          rw [hl]
          simp only
          rw [h2]
        | false =>
          simp only
          unfold destReplicaInactive
          rw [show ({ s with shards := (updateShard s.shards id (.replicaSetSlot
              (reps.map (fun pr => if pr.1 = toP then (pr.1, true) else pr)))) } :
              CollectionStateL).shards = updateShard s.shards id (.replicaSetSlot
              (reps.map (fun pr => if pr.1 = toP then (pr.1, true) else pr))) from rfl]
          unfold updateShard
          rw [lookup_setKey, hl]
          simp only [Option.map]
          rw [lookup_setKey, h2]
          rfl
    | localSlot =>
      simp only
      unfold destReplicaInactive
      rw [hl]
    | remoteSlot p =>
      simp only
      unfold destReplicaInactive
      rw [hl]
    | forwardProxySlot d =>
      simp only
      unfold destReplicaInactive
      rw [hl]
    | proxySlot =>
      simp only
      unfold destReplicaInactive
      rw [hl]

theorem nonSync_changed (s : CollectionStateL) (id : ShardId) (toP : PeerId) :
    ((promote_proxy_to_remote_shard s id toP).1 ||
      ((promote_temporary_shard_to_local (promote_proxy_to_remote_shard s id toP).2 id).1 ||
       (change_remote_shard_route
          (promote_temporary_shard_to_local (promote_proxy_to_remote_shard s id toP).2
            id).2 id toP).1)) =
    (hasForwardProxy s id || (hasTemporary s id || remoteRouteDiffers s id toP)) := by
  cases h1 : hasForwardProxy s id with
  | true =>
    rw [proxy_fst, h1]
    simp
  | false =>
    have hp := proxy_no_change s id toP h1
    rw [hp]
    simp only [Bool.false_or]
    cases h2 : hasTemporary s id with
    | true =>
      rw [temp_fst, h2]
      simp
    | false =>
      have ht := temp_no_change s id h2
      rw [ht]
      simp only [Bool.false_or]
      rw [route_fst]

theorem finish_transfer_fst (s : CollectionStateL) (t : ShardTransferL) :
    (finish_shard_transfer s t).1 =
      if t.sync then destReplicaInactive s t.shard_id t.toPeer
      else s.shard_transfers.contains t &&
        (hasForwardProxy s t.shard_id || (hasTemporary s t.shard_id ||
         remoteRouteDiffers s t.shard_id t.toPeer)) := by
  simp only [finish_shard_transfer]
  cases hs : t.sync with
  | true =>
    rw [if_pos rfl, if_pos rfl, activate_fst]
    rfl
  | false =>
    rw [if_neg (by simp), if_neg (by simp)]
    simp only
    rw [Bool.or_assoc]
    rw [nonSync_changed (stop_if_exists (register_finish_transfer s t).2 t).2
      t.shard_id t.toPeer]
    rfl

theorem finish_transfer_snd_transfers (s : CollectionStateL) (t : ShardTransferL) :
    (finish_shard_transfer s t).2.shard_transfers =
      s.shard_transfers.filter (fun x => x != t) := by
  simp only [finish_shard_transfer]
  cases hs : t.sync with
  | true =>
    rw [if_pos rfl, activate_preserves_transfers]
    rfl
  | false =>
    rw [if_neg (by simp)]
    simp only
    rw [route_preserves_transfers, temp_preserves_transfers, proxy_preserves_transfers]
    rfl

theorem finish_transfer_sync_snd (s : CollectionStateL) (t : ShardTransferL)
    (hs : t.sync = true) :
    (finish_shard_transfer s t).2 =
      (activate_peer_for_replica (stop_if_exists (register_finish_transfer s t).2 t).2
        t.shard_id t.toPeer).2 := by
  simp only [finish_shard_transfer, hs]
  simp only [if_true]

/-- C2 (amended).  A second identical `finish_shard_transfer` call always
returns `false`.  But the call does not return `true` whenever any step
changed state: it returns `true` exactly when, for a sync transfer, the
destination replica was inactive and this call activated it, and for a
non-sync transfer, the record was still registered AND a proxy promotion,
temporary-shard promotion or remote reroute changed state — removing the
transfer record or stopping the task alone yields `false`. -/
theorem c2_finish_transfer_characterization (s : CollectionStateL) (t : ShardTransferL) :
    (finish_shard_transfer (finish_shard_transfer s t).2 t).1 = false ∧
    (finish_shard_transfer s t).1 =
      (if t.sync then destReplicaInactive s t.shard_id t.toPeer
       else s.shard_transfers.contains t &&
         (hasForwardProxy s t.shard_id || (hasTemporary s t.shard_id ||
          remoteRouteDiffers s t.shard_id t.toPeer))) := by
  constructor
  · rw [finish_transfer_fst]
    cases hs : t.sync with
    | false =>
      rw [if_neg (by simp)]
      rw [finish_transfer_snd_transfers, contains_filter_ne]
      simp
    | true =>
      rw [if_pos rfl]
      rw [finish_transfer_sync_snd s t hs]
      exact activate_not_inactive _ _ _
  · exact finish_transfer_fst s t

/-- A peer holding a plain Local at shard 0 with the transfer still
registered: none of the promotion steps applies. -/
def c2CexState : CollectionStateL :=
  { shards := [(0, .localSlot)]
    temporaryShards := []
    shard_transfers := [{ shard_id := 0, fromPeer := 1, toPeer := 2, sync := false }]
    transfer_tasks := [] }

/-- C2 counterexample.  The very first `finish_shard_transfer` call returns
`false` although it observably changed state (it unregistered the transfer
record), so the call does not return `true` iff any of its steps changed
state, and the two calls do not return `true` then `false`. -/
theorem c2_counterexample :
    (finish_shard_transfer c2CexState
      { shard_id := 0, fromPeer := 1, toPeer := 2, sync := false }).1 = false ∧
    (finish_shard_transfer c2CexState
      { shard_id := 0, fromPeer := 1, toPeer := 2, sync := false }).2 ≠ c2CexState := by
  constructor
  · rfl
  · decide

/-! ## C10 — upsert_points (segments_updater.rs) -/

/-- A segment: the ids of the points it stores, and whether it is currently
appendable. -/
structure SegmentL where
  points : List Nat
  appendable : Bool
deriving DecidableEq, Repr

/-- The segment holder of one local shard. -/
structure SegmentHolderL where
  segments : List SegmentL
deriving DecidableEq, Repr

/-- The id is present in some appendable segment. -/
def idInAppendable (h : SegmentHolderL) (id : Nat) : Bool :=
  h.segments.any (fun seg => seg.appendable && decide (id ∈ seg.points))

/-- Modelled from the spec: `SegmentHolder::apply_points_to_appendable`
(segment_holder.rs is not under `src/`) — the dispatcher "applies op to each
segment that is currently appendable"; the returned set is the ids that were
found, and hence updated, in an appendable segment. -/
def apply_points_to_appendable (h : SegmentHolderL) (ids : List Nat) : List Nat :=
  ids.filter (idInAppendable h)

/-- The `for point_id in new_point_ids` loop over the default write segment:
each id already present counts as replaced (`res += .. as usize`), each
absent id is inserted. -/
def insertLoop : SegmentL → List Nat → SegmentL × Nat
  | seg, [] => (seg, 0)
  | seg, id :: rest =>
    if id ∈ seg.points then
      ((insertLoop seg rest).1, (insertLoop seg rest).2 + 1)
    else
      insertLoop { seg with points := seg.points ++ [id] } rest

/-- Modelled from the spec: `random_appendable_segment` — the "single
'default appendable' segment selected by the holder", determinised as the
first appendable segment; `none` when no appendable segment exists.  The
insertion of the new points happens in place. -/
def insertIntoFirstAppendable : List SegmentL → List Nat → Option (List SegmentL × Nat)
  | [], _ => none
  | seg :: rest, newIds =>
    if seg.appendable then
      some ((insertLoop seg newIds).1 :: rest, (insertLoop seg newIds).2)
    else
      (insertIntoFirstAppendable rest newIds).map (fun pr => (seg :: pr.1, pr.2))

/-- Embedding of `upsert_points`: update the ids found in appendable
segments, then insert the remaining ids into the single selected appendable
segment; a `ServiceError` when no appendable segment exists. -/
def upsert_points (h : SegmentHolderL) (ids : List Nat) :
    Except CollectionError (Nat × SegmentHolderL) :=
  match insertIntoFirstAppendable h.segments
      (ids.filter (fun id => !((apply_points_to_appendable h ids).contains id))) with
  | none => .error (.serviceError "No segments exists, expected at least one")
  | some (segs2, extra) =>
    .ok ((apply_points_to_appendable h ids).length + extra, { segments := segs2 })

/-- The id sits in the first appendable segment. -/
def inFirstAppendable (segs : List SegmentL) (id : Nat) : Bool :=
  match segs.find? (fun seg => seg.appendable) with
  | some seg => decide (id ∈ seg.points)
  | none => false

theorem insertLoop_appendable :
    ∀ (ids : List Nat) (seg : SegmentL), (insertLoop seg ids).1.appendable = seg.appendable := by
  intro ids
  induction ids with
  | nil => intro seg; rfl
  | cons id rest ih =>
    intro seg
    unfold insertLoop
    by_cases hmem : id ∈ seg.points
    · rw [if_pos hmem]
      exact ih seg
    · rw [if_neg hmem]
      exact ih { seg with points := seg.points ++ [id] }

theorem insertLoop_mem_mono :
    ∀ (ids : List Nat) (seg : SegmentL) (x : Nat),
      x ∈ seg.points → x ∈ (insertLoop seg ids).1.points := by
  intro ids
  induction ids with
  | nil => intro seg x hx; exact hx
  | cons id rest ih =>
    intro seg x hx
    unfold insertLoop
    by_cases hmem : id ∈ seg.points
    · rw [if_pos hmem]
      exact ih seg x hx
    · rw [if_neg hmem]
      exact ih { seg with points := seg.points ++ [id] } x (List.mem_append_left _ hx)

theorem insertLoop_mem_new :
    ∀ (ids : List Nat) (seg : SegmentL) (x : Nat),
      x ∈ ids → x ∈ (insertLoop seg ids).1.points := by
  intro ids
  induction ids with
  | nil => intro seg x hx; cases hx
  | cons id rest ih =>
    intro seg x hx
    unfold insertLoop
    by_cases hmem : id ∈ seg.points
    · rw [if_pos hmem]
      cases List.mem_cons.mp hx with
      | inl heq => exact insertLoop_mem_mono rest seg x (heq ▸ hmem)
      | inr hrest => exact ih seg x hrest
    · rw [if_neg hmem]
      cases List.mem_cons.mp hx with
      | inl heq =>
        apply insertLoop_mem_mono
        subst heq
        exact List.mem_append_right _ (List.mem_singleton.mpr rfl)
      | inr hrest => exact ih { seg with points := seg.points ++ [id] } x hrest

theorem insertIntoFirstAppendable_none_iff :
    ∀ (segs : List SegmentL) (newIds : List Nat),
      insertIntoFirstAppendable segs newIds = none ↔
        segs.find? (fun seg => seg.appendable) = none := by
  intro segs newIds
  induction segs with
  | nil => simp [insertIntoFirstAppendable]
  | cons seg rest ih =>
    unfold insertIntoFirstAppendable
    cases ha : seg.appendable with
    | true =>
      rw [if_pos rfl]
      simp [List.find?_cons, ha]
    | false =>
      rw [if_neg (by simp [ha])]
      rw [List.find?_cons]
      simp only [ha]
      rw [← ih]
      cases hrec : insertIntoFirstAppendable rest newIds <;> simp [hrec]

theorem insertIntoFirstAppendable_mem :
    ∀ (segs : List SegmentL) (newIds : List Nat) (segs2 : List SegmentL) (extra : Nat),
      insertIntoFirstAppendable segs newIds = some (segs2, extra) →
      ∀ x ∈ newIds, inFirstAppendable segs2 x = true := by
  intro segs
  induction segs with
  | nil => intro newIds segs2 extra h; cases h
  | cons seg rest ih =>
    intro newIds segs2 extra h x hx
    unfold insertIntoFirstAppendable at h
    cases ha : seg.appendable with
    | true =>
      rw [if_pos (by rw [ha])] at h
      cases h
      unfold inFirstAppendable
      rw [List.find?_cons]
      have happ : (insertLoop seg newIds).1.appendable = true := by
        rw [insertLoop_appendable, ha]
      simp only [happ]
      simpa using insertLoop_mem_new newIds seg x hx
    | false =>
      rw [if_neg (by simp [ha])] at h
      cases hrec : insertIntoFirstAppendable rest newIds with
      | none => rw [hrec] at h; cases h
      | some pr =>
        rw [hrec] at h
        obtain ⟨r2, e2⟩ := pr
        simp only [Option.map] at h
        cases h
        unfold inFirstAppendable
        rw [List.find?_cons]
        simp only [ha]
        have := ih newIds r2 extra hrec x hx
        unfold inFirstAppendable at this
        exact this

/-- C10: an upsert-points operation never fails with `PointNotFound`.  An
error arises exactly when no appendable segment exists (and it is the
`ServiceError` "No segments exists, expected at least one"); when the
operation succeeds, every id that was not updated in an existing appendable
segment has been inserted into the single selected appendable segment. -/
theorem c10_upsert_points_spec (h : SegmentHolderL) (ids : List Nat) :
    (∀ e, upsert_points h ids = .error e →
      h.segments.find? (fun seg => seg.appendable) = none ∧
      e = .serviceError "No segments exists, expected at least one") ∧
    (∀ id, upsert_points h ids ≠ .error (.pointNotFound id)) ∧
    (∀ res h', upsert_points h ids = .ok (res, h') →
      ∀ id ∈ ids, idInAppendable h id = false → inFirstAppendable h'.segments id = true) ∧
    (h.segments.find? (fun seg => seg.appendable) ≠ none →
      ∀ e, upsert_points h ids ≠ .error e) := by
  unfold upsert_points
  cases hins : insertIntoFirstAppendable h.segments
      (ids.filter (fun id => !((apply_points_to_appendable h ids).contains id))) with
  | none =>
    have hnone := (insertIntoFirstAppendable_none_iff h.segments
      (ids.filter (fun id => !((apply_points_to_appendable h ids).contains id)))).mp hins
    refine ⟨?_, ?_, ?_, ?_⟩
    · intro e he
      simp only at he
      cases he
      exact ⟨hnone, rfl⟩
    · intro id hne
      simp only at hne
      cases hne
    · intro res h' heq
      simp only at heq
      cases heq
    · intro hfind
      exact absurd hnone hfind
  | some pr =>
    obtain ⟨segs2, extra⟩ := pr
    refine ⟨?_, ?_, ?_, ?_⟩
    · intro e he
      simp only at he
      cases he
    · intro id hne
      simp only at hne
      cases hne
    · intro res h' heq
      simp only at heq
      cases heq
      intro id hid hflag
      apply insertIntoFirstAppendable_mem h.segments _ segs2 extra hins
      apply List.mem_filter.mpr
      refine ⟨hid, ?_⟩
      have hnotmem : id ∉ apply_points_to_appendable h ids := by
        unfold apply_points_to_appendable
        intro hmem
        have hflag2 := (List.mem_filter.mp hmem).2
        rw [hflag] at hflag2
        cases hflag2
      have hcont : (apply_points_to_appendable h ids).contains id = false := by
        simpa using hnotmem
      rw [hcont]
      rfl
    · intro hfind e he
      simp only at he
      cases he

/-- A holder with one sealed and one appendable segment for the witness. -/
def c10Holder : SegmentHolderL :=
  { segments := [{ points := [9], appendable := false }, { points := [1], appendable := true }] }

/-- A holder with no appendable segment at all. -/
def c10SealedHolder : SegmentHolderL :=
  { segments := [{ points := [3], appendable := false }] }

/-- C10 witness: upserting ids 1 (already stored in the appendable segment)
and 2 (new) inserts 2 into the selected appendable segment and never yields
`PointNotFound`; with only sealed segments, the error branch proves there
was no appendable segment. -/
theorem c10_upsert_points_witness :
    inFirstAppendable
      [({ points := [9], appendable := false } : SegmentL),
       { points := [1, 2], appendable := true }] 2 = true ∧
    upsert_points c10Holder [1, 2] ≠ .error (.pointNotFound 2) ∧
    upsert_points c10Holder [1, 2] ≠ .error .cancelled ∧
    c10SealedHolder.segments.find? (fun seg => seg.appendable) = none := by
  refine ⟨?_, ?_, ?_, ?_⟩
  · exact (c10_upsert_points_spec c10Holder [1, 2]).2.2.1 1
      { segments := [{ points := [9], appendable := false },
                     { points := [1, 2], appendable := true }] }
      rfl 2 (by decide) (by decide)
  · exact (c10_upsert_points_spec c10Holder [1, 2]).2.1 2
  · exact (c10_upsert_points_spec c10Holder [1, 2]).2.2.2 (by decide) .cancelled
  · exact ((c10_upsert_points_spec c10SealedHolder [5]).1
      (.serviceError "No segments exists, expected at least one") rfl).1
